import Mathlib

/-!
Verification development for the pterodactyl/sftp-server filesystem
handler.  The definitions below are a shallow embedding of the Go source
in src/server: path sandboxing (buildPath over Go's lexical
filepath.Clean / filepath.Join), the capability check (can), the cached
disk-quota check (hasSpace), the four SFTP handler entry points
(Fileread, Filewrite, Filecmd, Filelist) and the recursive directory
walk (directorySize).

OS effects are modelled by an oracle environment (Env) that fixes the
outcome of every syscall; each handler returns its SFTP result together
with the ordered trace of syscalls it issues on request-derived paths.
-/

namespace SftpServer

/-!
### Lexical path cleaning: Go's filepath.Clean and filepath.Join

These model the Go standard library functions used by buildPath, for the
Unix separator.  goClean transcribes the buffer algorithm of
path.Clean: the output buffer is kept in reversed order, and dotdot is
the length of the protected output region exactly as in the Go source.
The recursion is driven by a fuel counter set to the input length plus
one; every iteration of the Go loop consumes at least one input byte, so
the fuel never runs out.
-/

/-- Backtracking for a `..` element in Go's Clean: the buffer length is
decremented once, then repeatedly while it stays above `dotdot` and the
character just dropped is not a separator.  The buffer is reversed
(head is the most recently written character); `last` is the most
recently discarded character. -/
def backPop (dotdot : Nat) (last : Char) (out : List Char) : List Char :=
  match out with
  | [] => []
  | c :: t =>
    if (c :: t).length > dotdot ∧ last ≠ '/' then backPop dotdot c t
    else c :: t

/-- The main loop of Go's path.Clean over the remaining input bytes.
`out` is the reversed output buffer, `dotdot` the protected length,
`rooted` whether the original path began with a separator. -/
def cleanCore (rooted : Bool) : Nat → List Char → List Char → Nat → List Char
  | 0, _, out, _ => out
  | _, [], out, _ => out
  | fuel + 1, c :: rest, out, dotdot =>
    if c = '/' then
      -- empty path element
      cleanCore rooted fuel rest out dotdot
    else if c = '.' ∧ (rest = [] ∨ rest.head? = some '/') then
      -- "." element
      cleanCore rooted fuel rest out dotdot
    else if c = '.' ∧ rest.head? = some '.' ∧
        (rest.tail = [] ∨ rest.tail.head? = some '/') then
      -- ".." element
      if out.length > dotdot then
        match out with
        | [] => cleanCore rooted fuel rest.tail [] dotdot
        | c0 :: t => cleanCore rooted fuel rest.tail (backPop dotdot c0 t) dotdot
      else if !rooted then
        let out2 := if out.length > 0 then '.' :: '.' :: '/' :: out else ['.', '.']
        cleanCore rooted fuel rest.tail out2 out2.length
      else
        cleanCore rooted fuel rest.tail out dotdot
    else
      -- real path element: add separator if needed, then copy the element
      let out2 :=
        if (rooted ∧ out.length ≠ 1) ∨ (!rooted ∧ out.length ≠ 0) then '/' :: out
        else out
      let seg := (c :: rest).takeWhile (· != '/')
      cleanCore rooted fuel ((c :: rest).dropWhile (· != '/')) (seg.reverse ++ out2) dotdot

/-- Go's filepath.Clean (Unix separator): lexically collapse empty, `.`
and `..` elements without consulting the filesystem. -/
def goClean (path : String) : String :=
  if path = "" then "."
  else
    let cs := path.data
    let rooted : Bool := cs.head? == some '/'
    let input := if rooted then cs.tail else cs
    let out0 : List Char := if rooted then ['/'] else []
    let dd0 : Nat := if rooted then 1 else 0
    let out := cleanCore rooted (input.length + 1) input out0 dd0
    if out.length = 0 then "." else ⟨out.reverse⟩

/-- Go's filepath.Join on two elements: join the non-empty elements with
the separator and Clean the result. -/
def goJoin (a b : String) : String :=
  if a ≠ "" then goClean (a ++ "/" ++ b)
  else if b ≠ "" then goClean b
  else ""

/-- Go's strings.HasPrefix: `s` starts with `pre` as a plain string. -/
def strHasPref (s pre : String) : Bool :=
  pre.data.isPrefixOf s.data

/-- Go's filepath.Dir: everything up to the final separator, Cleaned. -/
def goDirname (p : String) : String :=
  goClean ⟨((p.data.reverse).dropWhile (· != '/')).reverse⟩

/-!
### Data model of the handler (src/server, type FileSystem)
-/

/-- Ownership target applied by chown (configured uid/gid). -/
structure SftpUser where
  Uid : Int
  Gid : Int
deriving DecidableEq

/-- The per-session handler state, as in the Go struct FileSystem.  The
TTL cache and the mutex are modelled through the oracle environment. -/
structure FileSystem where
  ServerConfig : String
  Directory : String
  UUID : String
  Permissions : List String
  ReadOnly : Bool
  DisableDiskCheck : Bool
  User : SftpUser
deriving DecidableEq

/-- An incoming SFTP request: method, path, optional target, and the
POSIX mode carried by the Setstat attributes (the sftp library's
`request.Attributes().FileMode().IsDir()` holds exactly when the
S_IFMT bits of this mode equal S_IFDIR). -/
structure Request where
  Method : String
  Filepath : String
  Target : String
  attrMode : Nat
deriving DecidableEq

/-- Whether a POSIX mode word describes a directory (S_IFMT = S_IFDIR),
which is what `Attributes().FileMode().IsDir()` computes. -/
def modeIsDir (m : Nat) : Bool :=
  m &&& 0o170000 == 0o040000

/-- buildPath: normalize the requested path against the session's data
directory and refuse paths that do not keep the directory as a string
prefix of the cleaned result.  Returns none on the escape error. -/
def FileSystem.buildPath (fs : FileSystem) (rawPath : String) : Option String :=
  let p := goClean (goJoin fs.Directory rawPath)
  if strHasPref p fs.Directory then some p else none

/-- can: true when the permission list is the single wildcard entry, or
when the requested permission occurs in the list. -/
def FileSystem.can (fs : FileSystem) (permission : String) : Bool :=
  if fs.Permissions.length = 1 ∧ fs.Permissions.getD 0 "" = "*" then true
  else fs.Permissions.contains permission

/-!
### OS oracle and syscall traces

Each handler consults an environment that fixes the result of every
syscall it might issue, and returns the ordered list of syscalls it
performed on request-derived paths.  The quota cache (patrickmn/go-cache)
and the server.json read performed inside hasSpace are part of the same
oracle; cache writes are irrelevant to a single handler call and are not
modelled.
-/

/-- Outcome of os.Stat on a path. -/
inductive StatOutcome where
  | info (isDir : Bool) (size : Int)
  | notExist
  | otherErr
deriving DecidableEq

/-- A syscall issued by a handler, with the path arguments it was given. -/
inductive Syscall where
  | stat (p : String)
  | openRead (p : String)
  | mkdirAll (p : String) (mode : Nat)
  | create (p : String)
  | chown (p : String) (uid gid : Int)
  | chmod (p : String) (mode : Nat)
  | rename (src dst : String)
  | removeAll (p : String)
  | symlink (oldname newname : String)
  | remove (p : String)
  | readDir (p : String)
deriving DecidableEq

/-- Whether a syscall mutates the filesystem. -/
def Syscall.isMutating : Syscall → Bool
  | .stat _ => false
  | .openRead _ => false
  | .readDir _ => false
  | _ => true

/-- A trace with no mutating syscall: the filesystem is left unchanged. -/
def noMutation (tr : List Syscall) : Bool :=
  tr.all (fun s => !s.isMutating)

/-- Error values a handler surfaces to the SFTP peer. -/
inductive SftpError where
  | noSuchFile
  | permissionDenied
  | opUnsupported
  | failure
deriving DecidableEq

deriving instance DecidableEq for Except

/-- Return value of Filecmd: Go returns either nil or one of the
sftp.ErrSshFx* codes (both nil and ErrSshFxOk reach the peer as OK). -/
inductive FxStatus where
  | nilOk
  | fxOk
  | noSuchFile
  | permissionDenied
  | opUnsupported
  | failure
deriving DecidableEq

/-- The oracle environment: outcomes of syscalls, the two quota cache
entries, the server.json build.disk read (outer none = read error, inner
none = jsonparser error), and the value a directory walk would return. -/
structure Env where
  stat : String → StatOutcome
  openOk : String → Bool
  mkdirAllOk : String → Bool
  createOk : String → Bool
  chownOk : String → Bool
  chmodOk : String → Bool
  renameOk : String → String → Bool
  removeAllOk : String → Bool
  symlinkOk : String → String → Bool
  removeOk : String → Bool
  readDirOk : String → Bool
  diskCache : Option Int
  usedCache : Option Int
  configDisk : Option (Option Int)
  dirSize : Int

/-- hasSpace: cached disk limit and cached usage, with the miss,
read-error and unlimited branches of the Go source.  The final test is
Go's `size / 1024 / 1024 <= space` on int64, i.e. truncating division. -/
def FileSystem.hasSpace (fs : FileSystem) (env : Env) : Bool :=
  if fs.DisableDiskCheck then true
  else
    let cached : Int := (env.diskCache).getD (-2)
    let spaceRes : Option Int :=
      if cached = -2 then
        match env.configDisk with
        | none => none
        | some v => some (v.getD 0)
      else some cached
    match spaceRes with
    | none => true
    | some space =>
      if space ≤ 0 then true
      else
        let size0 : Int := (env.usedCache).getD 0
        let size : Int := if size0 = 0 then env.dirSize else size0
        decide ((size.tdiv 1024).tdiv 1024 ≤ space)

/-- Fileread: capability check, path sandbox, stat, open read-only. -/
def FileSystem.Fileread (fs : FileSystem) (env : Env) (req : Request) :
    Except SftpError Unit × List Syscall :=
  if !fs.can "edit-files" then (.error .permissionDenied, [])
  else
    match fs.buildPath req.Filepath with
    | none => (.error .noSuchFile, [])
    | some p =>
      match env.stat p with
      | .notExist => (.error .noSuchFile, [.stat p])
      | _ =>
        if env.openOk p then (.ok (), [.stat p, .openRead p])
        else (.error .failure, [.stat p, .openRead p])

/-- Filewrite: read-only gate, path sandbox, quota, then the create or
truncate-overwrite branch depending on the stat outcome.  A chown is
issued after a successful create but its outcome never affects the
result. -/
def FileSystem.Filewrite (fs : FileSystem) (env : Env) (req : Request) :
    Except SftpError Unit × List Syscall :=
  if fs.ReadOnly then (.error .opUnsupported, [])
  else
    match fs.buildPath req.Filepath with
    | none => (.error .noSuchFile, [])
    | some p =>
      if !fs.hasSpace env then (.error .failure, [])
      else
        match env.stat p with
        | .notExist =>
          if !fs.can "create-files" then (.error .permissionDenied, [.stat p])
          else if !env.mkdirAllOk (goDirname p) then
            (.error .failure, [.stat p, .mkdirAll (goDirname p) 0o755])
          else if !env.createOk p then
            (.error .failure, [.stat p, .mkdirAll (goDirname p) 0o755, .create p])
          else
            (.ok (), [.stat p, .mkdirAll (goDirname p) 0o755, .create p,
              .chown p fs.User.Uid fs.User.Gid])
        | .otherErr => (.error .failure, [.stat p])
        | .info _ _ =>
          if !fs.can "save-files" then (.error .permissionDenied, [.stat p])
          else if !env.createOk p then (.error .failure, [.stat p, .create p])
          else (.ok (), [.stat p, .create p, .chown p fs.User.Uid fs.User.Gid])

/-- Filecmd: read-only gate, path sandbox for the path and (when
present) the target, then dispatch on the method.  Rename, Mkdir and
Symlink fall through to a final chown of the target location; Rmdir and
Remove return immediately; Setstat chmods to 0755 or 0644 depending only
on whether the requested mode describes a directory. -/
def FileSystem.Filecmd (fs : FileSystem) (env : Env) (req : Request) :
    FxStatus × List Syscall :=
  if fs.ReadOnly then (.opUnsupported, [])
  else
    match fs.buildPath req.Filepath with
    | none => (.noSuchFile, [])
    | some p =>
      let tRes : Option String :=
        if req.Target = "" then some "" else fs.buildPath req.Target
      match tRes with
      | none => (.opUnsupported, [])
      | some target =>
        if req.Method = "Setstat" then
          let mode : Nat := if modeIsDir req.attrMode then 0o755 else 0o644
          if env.chmodOk p then (.nilOk, [.chmod p mode])
          else (.failure, [.chmod p mode])
        else if req.Method = "Rename" then
          if !fs.can "move-files" then (.permissionDenied, [])
          else if !env.renameOk p target then (.failure, [.rename p target])
          else
            let loc := if target ≠ "" then target else p
            (.fxOk, [.rename p target, .chown loc fs.User.Uid fs.User.Gid])
        else if req.Method = "Rmdir" then
          if !fs.can "delete-files" then (.permissionDenied, [])
          else if !env.removeAllOk p then (.failure, [.removeAll p])
          else (.fxOk, [.removeAll p])
        else if req.Method = "Mkdir" then
          if !fs.can "create-files" then (.permissionDenied, [])
          else if !env.mkdirAllOk p then (.failure, [.mkdirAll p 0o755])
          else
            let loc := if target ≠ "" then target else p
            (.fxOk, [.mkdirAll p 0o755, .chown loc fs.User.Uid fs.User.Gid])
        else if req.Method = "Symlink" then
          if !fs.can "create-files" then (.permissionDenied, [])
          else if !env.symlinkOk p target then (.failure, [.symlink p target])
          else
            let loc := if target ≠ "" then target else p
            (.fxOk, [.symlink p target, .chown loc fs.User.Uid fs.User.Gid])
        else if req.Method = "Remove" then
          if !fs.can "delete-files" then (.permissionDenied, [])
          else if !env.removeOk p then (.failure, [.remove p])
          else (.fxOk, [.remove p])
        else (.opUnsupported, [])

/-- Filelist: path sandbox, then List (read the directory) or Stat. -/
def FileSystem.Filelist (fs : FileSystem) (env : Env) (req : Request) :
    Except SftpError Unit × List Syscall :=
  match fs.buildPath req.Filepath with
  | none => (.error .noSuchFile, [])
  | some p =>
    if req.Method = "List" then
      if !fs.can "list-files" then (.error .permissionDenied, [])
      else if env.readDirOk p then (.ok (), [.readDir p])
      else (.error .failure, [.readDir p])
    else if req.Method = "Stat" then
      if !fs.can "list-files" then (.error .permissionDenied, [])
      else
        match env.stat p with
        | .notExist => (.error .noSuchFile, [.stat p])
        | .otherErr => (.error .failure, [.stat p])
        | .info _ _ => (.ok (), [.stat p])
    else (.error .opUnsupported, [])

/-- A path is inside the tenant root when it equals the root or extends
it past a separator (the acceptance condition of spec section 4.1). -/
def underRoot (root p : String) : Bool :=
  p == root || strHasPref p (root ++ "/")

/-!
### directorySize: the recursive walk

directorySize reads a directory; on a read error it logs and returns 0,
otherwise it adds the size of every plain file and the recursive size of
every subdirectory.  The tree model records whether each directory's
listing can be read.  The sequential semantics below is the value of the
Go loop run without goroutine interleaving.
-/

mutual
/-- A directory entry: a plain file with its reported size, or a
directory with a readability flag and its entries. -/
inductive Entry where
  | file (size : Int)
  | dir (readable : Bool) (entries : Entries)
deriving DecidableEq
/-- A list of directory entries. -/
inductive Entries where
  | nil
  | cons (e : Entry) (rest : Entries)
deriving DecidableEq
end

mutual
/-- directorySize on a tree: 0 when the listing cannot be read (the
error is only logged), otherwise the sum over the entries. -/
def directorySize : Entry → Int
  | .file _ => 0
  | .dir false _ => 0
  | .dir true es => entriesSize es
/-- Sum of the Go loop: file sizes plus recursive subdirectory sizes. -/
def entriesSize : Entries → Int
  | .nil => 0
  | .cons (.file s) rest => s + entriesSize rest
  | .cons (.dir r es) rest => directorySize (.dir r es) + entriesSize rest
end

mutual
/-- The true byte total of a tree, counting every file regardless of
directory readability. -/
def trueSize : Entry → Int
  | .file s => s
  | .dir _ es => trueEntriesSize es
/-- True byte total of an entry list. -/
def trueEntriesSize : Entries → Int
  | .nil => 0
  | .cons e rest => trueSize e + trueEntriesSize rest
end

mutual
/-- All file sizes in the tree are nonnegative (as OS-reported sizes are). -/
def nonnegSizes : Entry → Bool
  | .file s => decide (0 ≤ s)
  | .dir _ es => nonnegSizesList es
/-- All file sizes in the entry list are nonnegative. -/
def nonnegSizesList : Entries → Bool
  | .nil => true
  | .cons e rest => nonnegSizes e && nonnegSizesList rest
end

/-!
### The unsynchronized concurrent accumulation

In the Go source every subdirectory is walked on its own goroutine and
each goroutine executes `size += fs.directorySize(p)` on the shared
variable without synchronization: a read of the shared counter followed
by a write of read-value + contribution.  The model below executes the
read and write events of each worker in a chosen schedule over the
shared counter. -/

/-- A read or write event of worker `i`. -/
inductive RmwEvent where
  | read (i : Nat)
  | write (i : Nat)
deriving DecidableEq

/-- One step: a read snapshots the shared counter into the worker's
register; a write stores register + contribution back (a write before
the worker's read leaves the counter unchanged). -/
def rmwStep (adds : List Int) :
    Int × (Nat → Option Int) → RmwEvent → Int × (Nat → Option Int)
  | (shared, regs), .read i => (shared, fun j => if j = i then some shared else regs j)
  | (shared, regs), .write i =>
    match regs i with
    | some v => (v + adds.getD i 0, regs)
    | none => (shared, regs)

/-- Final value of the shared counter after running a schedule of the
unsynchronized `size += contribution` updates, starting from 0. -/
def rmwRun (adds : List Int) (sched : List RmwEvent) : Int :=
  (sched.foldl (rmwStep adds) (0, fun _ => none)).1

/-!
### Concrete fixtures used by witnesses and counterexamples
-/

/-- An environment in which every syscall succeeds on an existing
regular file, with an unlimited cached disk quota. -/
def envAllOk : Env where
  stat := fun _ => .info false 0
  openOk := fun _ => true
  mkdirAllOk := fun _ => true
  createOk := fun _ => true
  chownOk := fun _ => true
  chmodOk := fun _ => true
  renameOk := fun _ _ => true
  removeAllOk := fun _ => true
  symlinkOk := fun _ _ => true
  removeOk := fun _ => true
  readDirOk := fun _ => true
  diskCache := some 0
  usedCache := none
  configDisk := some (some 0)
  dirSize := 0

/-- envAllOk with every stat reporting a missing file. -/
def envAbsent : Env :=
  { envAllOk with stat := fun _ => .notExist }

/-- A wildcard-owner session rooted at the tenant directory /data/T1. -/
def fsT1 : FileSystem where
  ServerConfig := "/srv/cfg/T1/server.json"
  Directory := "/data/T1"
  UUID := "T1"
  Permissions := ["*"]
  ReadOnly := false
  DisableDiskCheck := false
  User := ⟨0, 0⟩

/-- fsT1 restricted to the list-files capability only. -/
def fsListOnly : FileSystem :=
  { fsT1 with Permissions := ["list-files"] }

/-- envAbsent with a cached 10 MiB limit and a cached usage of u bytes. -/
def envQuota (u : Int) : Env :=
  { envAbsent with diskCache := some 10, usedCache := some u }

/-- A Filewrite request for a fresh file inside the sandbox. -/
def reqNewFile : Request where
  Method := "Put"
  Filepath := "newfile.txt"
  Target := ""
  attrMode := 0

/-- The prefix-collision escape request: ../T1abc resolves to
/data/T1abc, a sibling of the tenant root that still passes the plain
string-prefix test of buildPath. -/
def reqEscapeMkdir : Request where
  Method := "Mkdir"
  Filepath := "../T1abc"
  Target := ""
  attrMode := 0

/-- fsT1 with the global read-only switch set. -/
def fsReadOnlyOwner : FileSystem :=
  { fsT1 with ReadOnly := true }

/-- A Setstat request asking for mode 0777 on a regular file. -/
def reqSetstat777 : Request where
  Method := "Setstat"
  Filepath := "f.txt"
  Target := ""
  attrMode := 0o777

/-- A Fileread request whose path attempts to escape the sandbox. -/
def reqReadEscape : Request where
  Method := "Get"
  Filepath := "/../T2/secret"
  Target := ""
  attrMode := 0

/-- The tree used to exhibit the racy accumulation: a directory with two
readable subdirectories holding one file of 1 byte and one of 2 bytes. -/
def raceTree : Entry :=
  .dir true (.cons (.dir true (.cons (.file 1) .nil))
    (.cons (.dir true (.cons (.file 2) .nil)) .nil))

/-- A readable directory whose only subdirectory cannot be listed and
holds a 5-byte file. -/
def maskedTree : Entry :=
  .dir true (.cons (.dir false (.cons (.file 5) .nil)) .nil)

example : goClean "/data/T1/../T1abc" = "/data/T1abc" := by decide
example : goClean "/a/.." = "/" := by decide
example : goClean "a/../.." = ".." := by decide
example : goClean "" = "." := by decide
example : goClean "/../T2/x" = "/T2/x" := by decide
example : goJoin "/data/T1" "/../T2/x" = "/data/T2/x" := by decide
example : goDirname "/data/T1/newfile.txt" = "/data/T1" := by decide
example : goDirname "abc" = "." := by decide
example : FileSystem.buildPath
    ⟨"", "/data/T1", "T1", ["*"], false, false, ⟨0, 0⟩⟩ "/../T2/x" = none := by decide
example : FileSystem.buildPath
    ⟨"", "/data/T1", "T1", ["*"], false, false, ⟨0, 0⟩⟩ "../T1abc"
      = some "/data/T1abc" := by decide

/-!
### Helper lemmas
-/

theorem contains_iff_mem (l : List String) (t : String) :
    l.contains t = true ↔ t ∈ l := by
  simp [List.contains_iff_exists_mem_beq]

theorem can_iff (fs : FileSystem) (t : String) :
    fs.can t = true ↔ fs.Permissions = ["*"] ∨ t ∈ fs.Permissions := by
  unfold FileSystem.can
  rcases hperm : fs.Permissions with _ | ⟨a, l⟩
  · simp
  · rcases l with _ | ⟨b, l2⟩
    · by_cases ha : a = "*"
      · subst ha; simp
      · simp [ha, contains_iff_mem]
    · simp [contains_iff_mem]

theorem tdiv_1024_1024 (u : Int) (h : 0 ≤ u) :
    (u.tdiv 1024).tdiv 1024 = u.tdiv 1048576 := by
  obtain ⟨n, rfl⟩ := Int.eq_ofNat_of_zero_le h
  have h1 : (1024 : Int) = ((1024 : Nat) : Int) := rfl
  have h2 : (1048576 : Int) = ((1048576 : Nat) : Int) := rfl
  rw [h1, h2, ← Int.ofNat_tdiv, ← Int.ofNat_tdiv, ← Int.ofNat_tdiv,
    Nat.div_div_eq_div_mul]

mutual
theorem directorySize_le_trueSize : ∀ e : Entry, nonnegSizes e = true →
    directorySize e ≤ trueSize e ∧ 0 ≤ trueSize e
  | .file s, h => by
    have hs : (0 : Int) ≤ s := of_decide_eq_true (by simpa [nonnegSizes] using h)
    simp [directorySize, trueSize, hs]
  | .dir false es, h => by
    have hr := entriesSize_le_trueEntriesSize es (by simpa [nonnegSizes] using h)
    simp only [directorySize, trueSize]
    exact ⟨hr.2, hr.2⟩
  | .dir true es, h => by
    have hr := entriesSize_le_trueEntriesSize es (by simpa [nonnegSizes] using h)
    simpa only [directorySize, trueSize] using hr
theorem entriesSize_le_trueEntriesSize : ∀ es : Entries, nonnegSizesList es = true →
    entriesSize es ≤ trueEntriesSize es ∧ 0 ≤ trueEntriesSize es
  | .nil, _ => by simp [entriesSize, trueEntriesSize]
  | .cons (.file s) rest, h => by
    rw [nonnegSizesList, Bool.and_eq_true] at h
    have hs : (0 : Int) ≤ s := of_decide_eq_true (by simpa [nonnegSizes] using h.1)
    have hr := entriesSize_le_trueEntriesSize rest h.2
    simp only [entriesSize, trueEntriesSize, trueSize]
    omega
  | .cons (.dir r es) rest, h => by
    rw [nonnegSizesList, Bool.and_eq_true] at h
    have hd := directorySize_le_trueSize (.dir r es) h.1
    have hr := entriesSize_le_trueEntriesSize rest h.2
    simp only [entriesSize, trueEntriesSize]
    omega
end

/-!
### Claim theorems
-/

/-- C1: the sandbox invariant fails on the code.  With tenant root
/data/T1, a Filecmd Mkdir request for ../T1abc is accepted by buildPath
(the check is a plain string-prefix test), and the handler issues
MkdirAll and Chown syscalls on /data/T1abc, a path that is neither equal
to the root nor strictly below it, instead of rejecting the request with
NoSuchFile before any syscall. -/
theorem c1_sandbox_escape_syscall :
    (fsT1.Filecmd envAllOk reqEscapeMkdir).1 = FxStatus.fxOk
    ∧ (fsT1.Filecmd envAllOk reqEscapeMkdir).2 =
        [Syscall.mkdirAll "/data/T1abc" 0o755, Syscall.chown "/data/T1abc" 0 0]
    ∧ underRoot "/data/T1" "/data/T1abc" = false := by
  decide

/-- C2: buildPath returns the lexical cleaning of join(root, requested)
and treats a leading slash as relative, but it does NOT fail exactly
when the cleaned result is outside root-or-root-plus-separator: for
root /data/T1 the request ../T1abc cleans to /data/T1abc, which fails
the spec's acceptance condition yet is accepted by the code's plain
string-prefix check. -/
theorem c2_buildPath_prefix_collision :
    fsT1.buildPath "../T1abc" = some "/data/T1abc"
    ∧ goClean (goJoin "/data/T1" "../T1abc") = "/data/T1abc"
    ∧ underRoot "/data/T1" "/data/T1abc" = false
    ∧ fsT1.buildPath "/../T2/secret" = none
    ∧ fsT1.buildPath "/a/b" = some "/data/T1/a/b" := by
  decide

/-- C8: the concurrent accumulation of directorySize is racy.  On a
directory with two readable subdirectories of 1 and 2 bytes the
sequential walk returns 3, and a serialized schedule of the two
read-modify-write workers also returns 3, but the schedule in which both
workers read the shared counter before either writes returns 2: the
first worker's update is lost. -/
theorem c8_directory_size_race :
    directorySize raceTree = 3
    ∧ rmwRun [1, 2] [.read 0, .write 0, .read 1, .write 1] = 3
    ∧ rmwRun [1, 2] [.read 0, .read 1, .write 0, .write 1] = 2 := by
  decide

/-- C3 counterexample: with a cached limit of 10 MiB and cached
used_bytes of 10 * 1048576 + 1, hasSpace is still true (Go's truncating
integer division gives 10 ≤ 10) and a Filewrite for a new file succeeds
rather than returning Failure as the claim states. -/
theorem c3_counterexample_10MiB_plus_one :
    FileSystem.hasSpace fsT1 (envQuota (10 * 1048576 + 1)) = true
    ∧ (fsT1.Filewrite (envQuota (10 * 1048576 + 1)) reqNewFile).1 = Except.ok () := by
  decide

/-- C3 (amended): with disk checking enabled and a positive cached
limit L and positive cached used_bytes u, hasSpace is true exactly when
u / 1_048_576 ≤ L under truncating integer division; hence a write is
still allowed at used = 10 * 1048576 (and at one byte over), and denied
once used reaches 11 * 1048576. -/
theorem c3_quota_truncating_division (fs : FileSystem) (env : Env) (L u : Int)
    (hdc : fs.DisableDiskCheck = false)
    (hL : env.diskCache = some L) (hLpos : 0 < L)
    (hu : env.usedCache = some u) (hupos : 0 < u) :
    (fs.hasSpace env = true ↔ u.tdiv 1048576 ≤ L)
    ∧ FileSystem.hasSpace fsT1 (envQuota (10 * 1048576)) = true
    ∧ FileSystem.hasSpace fsT1 (envQuota (11 * 1048576)) = false := by
  refine ⟨?_, by decide, by decide⟩
  have hne : ¬(L = -2) := by omega
  have hle : ¬(L ≤ 0) := by omega
  have hune : ¬(u = 0) := by omega
  unfold FileSystem.hasSpace
  rw [hdc, hL, hu]
  simp only [Bool.false_eq_true, if_false, Option.getD_some, hne, hle, hune, if_neg,
    ite_false, decide_eq_true_eq]
  rw [tdiv_1024_1024 u hupos.le]

/-- C3 witness: the amended statement instantiated at the 10 MiB limit
with one byte over the limit. -/
theorem c3_quota_truncating_division_witness :
    (FileSystem.hasSpace fsT1 (envQuota (10 * 1048576 + 1)) = true
      ↔ (10 * 1048576 + 1 : Int).tdiv 1048576 ≤ 10)
    ∧ FileSystem.hasSpace fsT1 (envQuota (10 * 1048576)) = true
    ∧ FileSystem.hasSpace fsT1 (envQuota (11 * 1048576)) = false :=
  c3_quota_truncating_division fsT1 (envQuota (10 * 1048576 + 1)) 10 (10 * 1048576 + 1)
    rfl rfl (by decide) rfl (by decide)

/-- C4: the wildcard permission list passes every capability check and
any other list passes exactly the tags it contains; every capability
gated operation, reached with the read-only flag unset and an in-sandbox
path, answers PermissionDenied to a principal lacking the required tag,
and its trace contains no mutating syscall. -/
theorem c4_capability_gating (fs : FileSystem) (env : Env) (req : Request) (p : String)
    (hro : fs.ReadOnly = false)
    (hbp : fs.buildPath req.Filepath = some p)
    (htgt : req.Target = "" ∨ (fs.buildPath req.Target).isSome = true) :
    (∀ t : String, fs.can t = true ↔ fs.Permissions = ["*"] ∨ t ∈ fs.Permissions)
    ∧ (fs.can "edit-files" = false →
        fs.Fileread env req = (.error .permissionDenied, []))
    ∧ (fs.hasSpace env = true → env.stat p = .notExist →
        fs.can "create-files" = false →
        fs.Filewrite env req = (.error .permissionDenied, [.stat p]))
    ∧ (∀ d sz, fs.hasSpace env = true → env.stat p = .info d sz →
        fs.can "save-files" = false →
        fs.Filewrite env req = (.error .permissionDenied, [.stat p]))
    ∧ (req.Method = "Rename" → fs.can "move-files" = false →
        fs.Filecmd env req = (.permissionDenied, []))
    ∧ (req.Method = "Rmdir" → fs.can "delete-files" = false →
        fs.Filecmd env req = (.permissionDenied, []))
    ∧ (req.Method = "Mkdir" → fs.can "create-files" = false →
        fs.Filecmd env req = (.permissionDenied, []))
    ∧ (req.Method = "Symlink" → fs.can "create-files" = false →
        fs.Filecmd env req = (.permissionDenied, []))
    ∧ (req.Method = "Remove" → fs.can "delete-files" = false →
        fs.Filecmd env req = (.permissionDenied, []))
    ∧ (req.Method = "List" → fs.can "list-files" = false →
        fs.Filelist env req = (.error .permissionDenied, []))
    ∧ (req.Method = "Stat" → fs.can "list-files" = false →
        fs.Filelist env req = (.error .permissionDenied, []))
    ∧ noMutation [] = true ∧ noMutation [Syscall.stat p] = true := by
  refine ⟨fun t => can_iff fs t, ?_, ?_, ?_, ?_, ?_, ?_, ?_, ?_, ?_, ?_, rfl, rfl⟩
  · intro hcan
    simp [FileSystem.Fileread, hcan]
  · intro hsp hst hcan
    simp [FileSystem.Filewrite, hro, hbp, hsp, hst, hcan]
  · intro d sz hsp hst hcan
    simp [FileSystem.Filewrite, hro, hbp, hsp, hst, hcan]
  · intro hm hcan
    rcases htgt with hT | hT
    · simp [FileSystem.Filecmd, hro, hbp, hT, hm, hcan]
    · obtain ⟨t, ht⟩ := Option.isSome_iff_exists.mp hT
      by_cases hT0 : req.Target = ""
      · simp [FileSystem.Filecmd, hro, hbp, hT0, hm, hcan]
      · simp [FileSystem.Filecmd, hro, hbp, hT0, ht, hm, hcan]
  · intro hm hcan
    rcases htgt with hT | hT
    · simp [FileSystem.Filecmd, hro, hbp, hT, hm, hcan]
    · obtain ⟨t, ht⟩ := Option.isSome_iff_exists.mp hT
      by_cases hT0 : req.Target = ""
      · simp [FileSystem.Filecmd, hro, hbp, hT0, hm, hcan]
      · simp [FileSystem.Filecmd, hro, hbp, hT0, ht, hm, hcan]
  · intro hm hcan
    rcases htgt with hT | hT
    · simp [FileSystem.Filecmd, hro, hbp, hT, hm, hcan]
    · obtain ⟨t, ht⟩ := Option.isSome_iff_exists.mp hT
      by_cases hT0 : req.Target = ""
      · simp [FileSystem.Filecmd, hro, hbp, hT0, hm, hcan]
      · simp [FileSystem.Filecmd, hro, hbp, hT0, ht, hm, hcan]
  · intro hm hcan
    rcases htgt with hT | hT
    · simp [FileSystem.Filecmd, hro, hbp, hT, hm, hcan]
    · obtain ⟨t, ht⟩ := Option.isSome_iff_exists.mp hT
      by_cases hT0 : req.Target = ""
      · simp [FileSystem.Filecmd, hro, hbp, hT0, hm, hcan]
      · simp [FileSystem.Filecmd, hro, hbp, hT0, ht, hm, hcan]
  · intro hm hcan
    rcases htgt with hT | hT
    · simp [FileSystem.Filecmd, hro, hbp, hT, hm, hcan]
    · obtain ⟨t, ht⟩ := Option.isSome_iff_exists.mp hT
      by_cases hT0 : req.Target = ""
      · simp [FileSystem.Filecmd, hro, hbp, hT0, hm, hcan]
      · simp [FileSystem.Filecmd, hro, hbp, hT0, ht, hm, hcan]
  · intro hm hcan
    simp [FileSystem.Filelist, hbp, hm, hcan]
  · intro hm hcan
    simp [FileSystem.Filelist, hbp, hm, hcan]

/-- C4 witness: a list-files-only principal is denied a Fileread. -/
theorem c4_capability_gating_witness :
    fsListOnly.Fileread envAllOk reqNewFile = (.error .permissionDenied, []) :=
  (c4_capability_gating fsListOnly envAllOk reqNewFile "/data/T1/newfile.txt"
    rfl (by decide) (Or.inl rfl)).2.1 (by decide)

/-- C5: with the global read-only flag set, every Filewrite and every
Filecmd call returns OpUnsupported with an empty syscall trace, for any
method, path and permission list; Fileread never consults the flag, and
a wildcard owner can still read an existing file in read-only mode. -/
theorem c5_readonly_mode (fs : FileSystem) (env : Env) (req : Request)
    (h : fs.ReadOnly = true) :
    fs.Filewrite env req = (.error .opUnsupported, [])
    ∧ fs.Filecmd env req = (.opUnsupported, [])
    ∧ (∀ ro : Bool, FileSystem.Fileread { fs with ReadOnly := ro } env req
        = fs.Fileread env req)
    ∧ (fsReadOnlyOwner.Fileread envAllOk reqNewFile).1 = .ok () := by
  refine ⟨by simp [FileSystem.Filewrite, h], by simp [FileSystem.Filecmd, h],
    fun ro => rfl, by decide⟩

/-- C5 witness: the read-only owner session at concrete requests. -/
theorem c5_readonly_mode_witness :
    fsReadOnlyOwner.Filewrite envAllOk reqNewFile = (.error .opUnsupported, [])
    ∧ fsReadOnlyOwner.Filecmd envAllOk reqEscapeMkdir = (.opUnsupported, [])
    ∧ (fsReadOnlyOwner.Fileread envAllOk reqNewFile).1 = .ok () := by
  have h1 := c5_readonly_mode fsReadOnlyOwner envAllOk reqNewFile rfl
  have h2 := c5_readonly_mode fsReadOnlyOwner envAllOk reqEscapeMkdir rfl
  exact ⟨h1.1, h2.2.1, h1.2.2.2⟩

/-- C6: a Filewrite with read-only unset, an in-sandbox path and
sufficient quota: when the target is absent it requires create-files,
creates the parent directories with mode 0755, creates the file and
chowns it to the configured uid/gid; when the target exists it requires
save-files, truncate-creates and chowns; any other stat error yields
Failure; the chown outcome never affects the result. -/
theorem c6_filewrite_branches (fs : FileSystem) (env : Env) (req : Request) (p : String)
    (hro : fs.ReadOnly = false)
    (hbp : fs.buildPath req.Filepath = some p)
    (hsp : fs.hasSpace env = true) :
    (env.stat p = .notExist → fs.can "create-files" = true →
      env.mkdirAllOk (goDirname p) = true → env.createOk p = true →
      fs.Filewrite env req = (.ok (), [.stat p, .mkdirAll (goDirname p) 0o755,
        .create p, .chown p fs.User.Uid fs.User.Gid]))
    ∧ (env.stat p = .notExist → fs.can "create-files" = false →
      fs.Filewrite env req = (.error .permissionDenied, [.stat p]))
    ∧ (env.stat p = .notExist → fs.can "create-files" = true →
      env.mkdirAllOk (goDirname p) = false →
      fs.Filewrite env req = (.error .failure, [.stat p, .mkdirAll (goDirname p) 0o755]))
    ∧ (∀ d sz, env.stat p = .info d sz → fs.can "save-files" = true →
      env.createOk p = true →
      fs.Filewrite env req = (.ok (), [.stat p, .create p,
        .chown p fs.User.Uid fs.User.Gid]))
    ∧ (∀ d sz, env.stat p = .info d sz → fs.can "save-files" = false →
      fs.Filewrite env req = (.error .permissionDenied, [.stat p]))
    ∧ (env.stat p = .otherErr → fs.Filewrite env req = (.error .failure, [.stat p]))
    ∧ (∀ b : String → Bool,
        FileSystem.Filewrite fs { env with chownOk := b } req = fs.Filewrite env req) := by
  refine ⟨?_, ?_, ?_, ?_, ?_, ?_, fun b => rfl⟩
  · intro hst hcan hmk hcr
    simp [FileSystem.Filewrite, hro, hbp, hsp, hst, hcan, hmk, hcr]
  · intro hst hcan
    simp [FileSystem.Filewrite, hro, hbp, hsp, hst, hcan]
  · intro hst hcan hmk
    simp [FileSystem.Filewrite, hro, hbp, hsp, hst, hcan, hmk]
  · intro d sz hst hcan hcr
    simp [FileSystem.Filewrite, hro, hbp, hsp, hst, hcan, hcr]
  · intro d sz hst hcan
    simp [FileSystem.Filewrite, hro, hbp, hsp, hst, hcan]
  · intro hst
    simp [FileSystem.Filewrite, hro, hbp, hsp, hst]

/-- C6 witness: creating a fresh file as the wildcard owner. -/
theorem c6_filewrite_branches_witness :
    fsT1.Filewrite envAbsent reqNewFile = (.ok (),
      [.stat "/data/T1/newfile.txt", .mkdirAll "/data/T1" 0o755,
       .create "/data/T1/newfile.txt", .chown "/data/T1/newfile.txt" 0 0]) := by
  have h := c6_filewrite_branches fsT1 envAbsent reqNewFile "/data/T1/newfile.txt"
    rfl (by decide) (by decide)
  have h1 := h.1 rfl (by decide) rfl rfl
  simpa [show goDirname "/data/T1/newfile.txt" = "/data/T1" from by decide] using h1

/-- C7: a Setstat with read-only unset and an in-sandbox path chmods
the resolved path to 0755 when the requested mode describes a directory
and to 0644 otherwise, succeeding while ignoring all other mode bits;
a requested mode 0777 on a regular file is not a directory mode, a
directory mode 040777 is. -/
theorem c7_setstat_modes (fs : FileSystem) (env : Env) (req : Request) (p : String)
    (hro : fs.ReadOnly = false) (hm : req.Method = "Setstat")
    (ht : req.Target = "")
    (hbp : fs.buildPath req.Filepath = some p)
    (hchmod : env.chmodOk p = true) :
    fs.Filecmd env req =
      (.nilOk, [.chmod p (if modeIsDir req.attrMode then 0o755 else 0o644)])
    ∧ modeIsDir 0o777 = false
    ∧ modeIsDir 0o040777 = true := by
  refine ⟨?_, by decide, by decide⟩
  simp [FileSystem.Filecmd, hro, hbp, ht, hm, hchmod]

/-- C7 witness: Setstat requesting mode 0777 on a regular file results
in a chmod to 0644 and success. -/
theorem c7_setstat_modes_witness :
    fsT1.Filecmd envAllOk reqSetstat777 =
      (.nilOk, [.chmod "/data/T1/f.txt"
        (if modeIsDir reqSetstat777.attrMode then 0o755 else 0o644)])
    ∧ modeIsDir 0o777 = false
    ∧ modeIsDir 0o040777 = true :=
  c7_setstat_modes fsT1 envAllOk reqSetstat777 "/data/T1/f.txt"
    rfl rfl rfl (by decide) rfl

/-- C9: Fileread evaluates the edit-files capability before resolving
the request path: a principal lacking edit-files receives
PermissionDenied, with no syscall issued, for every request, including a
sandbox-escape attempt. -/
theorem c9_fileread_permission_first (fs : FileSystem) (env : Env) (req : Request)
    (h : fs.can "edit-files" = false) :
    fs.Fileread env req = (.error .permissionDenied, []) := by
  simp [FileSystem.Fileread, h]

/-- C9 witness: the list-files-only principal gets PermissionDenied, not
NoSuchFile, on an escaping Fileread. -/
theorem c9_fileread_permission_first_witness :
    fsListOnly.Fileread envAllOk reqReadEscape = (.error .permissionDenied, [])
    ∧ fsListOnly.buildPath reqReadEscape.Filepath = none := by
  refine ⟨c9_fileread_permission_first fsListOnly envAllOk reqReadEscape (by decide), ?_⟩
  decide

/-- C10: directorySize returns 0 for any directory whose listing cannot
be read, so an unreadable subtree contributes zero bytes and the
computed usage never exceeds, and can fall strictly below, the true
total of the tree's (nonnegative) file sizes. -/
theorem c10_unreadable_subtree_zero :
    (∀ es : Entries, directorySize (.dir false es) = 0)
    ∧ (∀ e : Entry, nonnegSizes e = true → directorySize e ≤ trueSize e)
    ∧ directorySize maskedTree = 0
    ∧ trueSize maskedTree = 5 := by
  refine ⟨fun es => rfl, fun e h => (directorySize_le_trueSize e h).1, by decide, by decide⟩

/-- C10 witness: the masked tree undercounts (0 ≤ 5). -/
theorem c10_unreadable_subtree_zero_witness :
    directorySize maskedTree ≤ trueSize maskedTree :=
  c10_unreadable_subtree_zero.2.1 maskedTree (by decide)

end SftpServer
